import Mathlib

/-!
Verification of the split-learning algorithm in `algorithms/split_learning.py`.

The file shallowly embeds the pieces of `Algorithm` (and `FeatureDataset`) that
the claims are about:

* `pyGet` models Python list indexing `l[i]` (raising `IndexError` out of range);
* `nextIndex`, `batchBody`, `trainLoop`, `complete_train` embed the batch loop of
  `Algorithm.complete_train`, where gradients are abstract values of a type `G`;
* `apply_gradients` and `propagatedGradient` embed the backward hook
  `Algorithm.apply_gradients` together with the hook-calling convention of the
  autodiff engine;
* `Store`, `deepcopy`, `load_gradients` embed `Algorithm.load_gradients` at the
  level of Python object references, so that deep copying is observable;
* `chunks`, `dataLoader`, `extract_features` embed `Algorithm.extract_features`;
* `FeatureDataset` embeds the dataset wrapper class of the same name.
-/

namespace SplitLearning

/-- Python list indexing `l[i]` for a non-negative index: returns the element
when `i < len(l)` and raises `IndexError: list index out of range` otherwise. -/
def pyGet {α : Type} (l : List α) (i : Nat) : Except String α :=
  match l.get? i with
  | some v => Except.ok v
  | none => Except.error "list index out of range"

/-- The gradient-index update in the body of the batch loop of
`Algorithm.complete_train`:

    if gradients_index < (len(self.gradients_list) - 1):
        gradients_index = gradients_index + 1

The comparison is on Python integers, so `len - 1` is computed in `Int`
(`-1` when the list is empty). -/
def nextIndex {G : Type} (gl : List G) (idx : Nat) : Nat :=
  if (idx : Int) < (gl.length : Int) - 1 then idx + 1 else idx

/-- The operations performed, in order, by one iteration of the batch loop of
`Algorithm.complete_train`. -/
inductive TrainOp : Type where
  | zeroGrad      -- optimizer.zero_grad()
  | forwardPass   -- outputs = self.model(examples)
  | computeLoss   -- loss = loss_criterion(outputs, labels)
  | backwardPass  -- loss.backward(), during which the registered hook fires
  | optimizerStep -- optimizer.step()
  | advanceIndex  -- the conditional gradients_index update
  deriving DecidableEq, Repr

/-- The outcome of one iteration of the batch loop of `Algorithm.complete_train`:
the operations it performs in order, the updated `gradients_index`, and the
result of `self.cut_layer_gradients = self.gradients_list[gradients_index]`
(which can raise `IndexError`). -/
structure BatchResult (G : Type) where
  ops : List TrainOp
  newIndex : Nat
  nextCut : Except String G

/-- One iteration of the batch loop of `Algorithm.complete_train`, starting
from gradient index `idx`.  The loop body zeroes gradients, runs the forward
pass, computes the loss, runs the backward pass (firing the registered hook),
steps the optimizer, conditionally advances the gradient index, and finally
reads `gradients_list[gradients_index]` into `cut_layer_gradients`. -/
def batchBody {G : Type} (gl : List G) (idx : Nat) : BatchResult G :=
  { ops := [TrainOp.zeroGrad, TrainOp.forwardPass, TrainOp.computeLoss,
            TrainOp.backwardPass, TrainOp.optimizerStep, TrainOp.advanceIndex]
    newIndex := nextIndex gl idx
    nextCut := pyGet gl (nextIndex gl idx) }

/-- The batch loop of `Algorithm.complete_train`, run for a given number of
batches.  `cut` is the current value of `self.cut_layer_gradients`, `idx` the
current `gradients_index`.  Returns the list of gradients that were loaded in
`cut_layer_gradients` while each batch trained (in batch order), paired with
the `IndexError` message if the loop aborted. -/
def trainLoop {G : Type} (gl : List G) (cut : G) (idx : Nat) :
    Nat → List G × Option String
  | 0 => ([], none)
  | Nat.succ n =>
    let b := batchBody gl idx
    match b.nextCut with
    | Except.error e => ([cut], some e)
    | Except.ok g =>
      let r := trainLoop gl g b.newIndex n
      (cut :: r.1, r.2)

/-- `Algorithm.complete_train`, abstracted over the number of batches the data
loader yields.  Before the loop it runs

    gradients_index = 1
    self.cut_layer_gradients = self.gradients_list[0]

and then iterates the batch loop.  Returns the gradient held in
`cut_layer_gradients` during each trained batch, and the `IndexError` message
if one was raised (after the batches recorded in the first component). -/
def complete_train {G : Type} (gl : List G) (numBatches : Nat) :
    List G × Option String :=
  match pyGet gl 0 with
  | Except.error e => ([], some e)
  | Except.ok g0 => trainLoop gl g0 1 numBatches

/-- The backward hook `Algorithm.apply_gradients`:

    def apply_gradients(self, module, grad_input, grad_output):
        if self.cut_layer_gradients is not None:
            grad_output = self.cut_layer_gradients

In Python, assigning to the parameter `grad_output` rebinds a function-local
name only, and the function body has no `return` statement, so the hook
returns `None`.  The result records the hook's return value (first component)
and the final value of the local name `grad_output` (second component). -/
def apply_gradients {G : Type} (cut_layer_gradients : Option G)
    (grad_output : G) : Option G × G :=
  match cut_layer_gradients with
  | some g => (none, g)
  | none => (none, grad_output)

/-- The gradient that actually propagates further back after the cut layer's
backward hook runs.  Per the autodiff engine's `register_backward_hook`
contract, only a non-`None` value returned by the hook replaces a gradient;
a hook that returns `None` leaves the computed gradients unchanged, and
rebinding one of the hook's arguments is invisible to the engine. -/
def propagatedGradient {G : Type} (cut : Option G) (computed : G) : G :=
  match (apply_gradients cut computed).1 with
  | some g => g
  | none => computed

/-! ### Object-level model of `Algorithm.load_gradients`

`load_gradients` stores `deepcopy(gradients)`.  To make deep copying
observable, gradients are modelled as references (addresses) into a store of
mutable tensor objects; `deepcopy` allocates fresh cells holding copies of the
referenced values. -/

/-- A store of Python objects: a memory mapping addresses to values, and the
next fresh address (every address `< next` is allocated). -/
structure Store (V : Type) where
  mem : Nat → V
  next : Nat

/-- Mutating the object at address `a` in place (e.g. an in-place tensor
update performed by the caller after handing the list over). -/
def Store.write {V : Type} (s : Store V) (a : Nat) (v : V) : Store V :=
  { s with mem := fun n => if n = a then v else s.mem n }

/-- `copy.deepcopy` on a list of references: allocates a fresh cell for each
entry, holding a copy of the referenced value, and returns the new store
together with the list of fresh addresses. -/
def deepcopy {V : Type} (s : Store V) : List Nat → Store V × List Nat
  | [] => (s, [])
  | a :: rest =>
    let s1 : Store V :=
      { mem := fun n => if n = s.next then s.mem a else s.mem n
        next := s.next + 1 }
    let r := deepcopy s1 rest
    (r.1, s.next :: r.2)

/-- The client-side algorithm state relevant to gradient loading: the field
`self.gradients_list`, as a list of references into the store. -/
structure Algorithm where
  gradients_list : List Nat

/-- `Algorithm.load_gradients`:

    def load_gradients(self, gradients):
        self.gradients_list = deepcopy(gradients)

It replaces `gradients_list` wholesale with a deep copy of the argument. -/
def load_gradients {V : Type} (alg : Algorithm) (s : Store V)
    (gradients : List Nat) : Algorithm × Store V :=
  let r := deepcopy s gradients
  ({ alg with gradients_list := r.2 }, r.1)

/-! ### Model of `Algorithm.extract_features` -/

/-- Grouping of the sampled examples into mini-batches of size `n` by the data
loader (the last batch may be smaller); batch size `0` is invalid and yields
no batches. -/
def chunks {γ : Type} (n : Nat) (l : List γ) : List (List γ) :=
  match n, l with
  | 0, _ => []
  | _ + 1, [] => []
  | m + 1, x :: xs => ((x :: xs).take (m + 1)) :: chunks (m + 1) (xs.drop m)
termination_by l.length
decreasing_by
  simp only [List.length_cons, List.length_drop]
  omega

/-- The data loader built in `extract_features`: it draws the dataset entries
at the sampler's indices, in sampler order, and groups them into mini-batches
of `batchSize`. -/
def dataLoader {α β : Type} (dataset : List (α × β)) (sampler : List Nat)
    (batchSize : Nat) : List (List (α × β)) :=
  chunks batchSize (sampler.filterMap (fun i => dataset.get? i))

/-- `Algorithm.extract_features`: for each mini-batch of the data loader it
runs `logits = self.model.forward_to(inputs, cut_layer)` on the batch of
inputs (the model maps a batch elementwise, preserving the batch dimension)
and then appends `(logits[i], targets[i])` to `feature_dataset` for each
sample `i` of the batch. -/
def extract_features {α β φ : Type} (forward_to : α → φ)
    (dataset : List (α × β)) (sampler : List Nat) (batchSize : Nat) :
    List (φ × β) :=
  (dataLoader dataset sampler batchSize).foldl
    (fun feature_dataset batch =>
      let logits := batch.map (fun sample => forward_to sample.1)
      let targets := batch.map (fun sample => sample.2)
      feature_dataset ++ List.zip logits targets) []

/-! ### The `FeatureDataset` wrapper class -/

/-- The `FeatureDataset` dataset wrapper: holds the wrapped dataset, here a
list of (image, label) pairs. -/
structure FeatureDataset (α β : Type) where
  dataset : List (α × β)

/-- `FeatureDataset.__len__`: `len(self.dataset)`. -/
def FeatureDataset.len {α β : Type} (fd : FeatureDataset α β) : Nat :=
  fd.dataset.length

/-- `FeatureDataset.__getitem__`: destructures `self.dataset[item]` into
`image, label` and returns the pair `(image, label)`; out-of-range access
propagates the underlying dataset's failure (`none`). -/
def FeatureDataset.getitem {α β : Type} (fd : FeatureDataset α β)
    (item : Nat) : Option (α × β) :=
  match fd.dataset.get? item with
  | some (image, label) => some (image, label)
  | none => none

/-- `Algorithm.train`: wraps the training set in a `FeatureDataset` and hands
it to the trainer, which consumes it through `len` and `getitem`. -/
def train {α β ρ : Type} (trainerTrain : FeatureDataset α β → ρ)
    (trainset : List (α × β)) : ρ :=
  trainerTrain { dataset := trainset }

/-! ### Lemmas about `deepcopy` -/

theorem deepcopy_next {V : Type} (l : List Nat) :
    ∀ s : Store V, (deepcopy s l).1.next = s.next + l.length := by
  induction l with
  | nil => intro s; simp [deepcopy]
  | cons a rest ih =>
    intro s
    simp only [deepcopy, List.length_cons]
    rw [ih]
    simp
    omega

theorem deepcopy_mem_lt {V : Type} (l : List Nat) :
    ∀ (s : Store V) (n : Nat), n < s.next →
      (deepcopy s l).1.mem n = s.mem n := by
  induction l with
  | nil => intro s n _; rfl
  | cons a rest ih =>
    intro s n hn
    simp only [deepcopy]
    rw [ih _ n (by simp; omega)]
    simp
    intro he
    omega

theorem deepcopy_addrs_ge {V : Type} (l : List Nat) :
    ∀ (s : Store V) (c : Nat), c ∈ (deepcopy s l).2 → s.next ≤ c := by
  induction l with
  | nil => intro s c hc; simp [deepcopy] at hc
  | cons a rest ih =>
    intro s c hc
    simp only [deepcopy, List.mem_cons] at hc
    rcases hc with h | h
    · omega
    · have := ih _ c h
      simp at this
      omega

theorem deepcopy_values {V : Type} (l : List Nat) :
    ∀ s : Store V, (∀ b ∈ l, b < s.next) →
      (deepcopy s l).2.map (deepcopy s l).1.mem = l.map s.mem := by
  induction l with
  | nil => intro s _; rfl
  | cons a rest ih =>
    intro s hv
    simp only [deepcopy, List.map_cons, List.cons.injEq]
    constructor
    · rw [deepcopy_mem_lt rest _ s.next (by simp)]
      simp
    · rw [ih _ (fun b hb => by have := hv b (List.mem_cons_of_mem a hb); simp; omega)]
      refine List.map_congr_left (fun b hb => ?_)
      have := hv b (List.mem_cons_of_mem a hb)
      simp
      intro he
      omega

theorem deepcopy_addrs_length {V : Type} (l : List Nat) :
    ∀ s : Store V, (deepcopy s l).2.length = l.length := by
  induction l with
  | nil => intro s; rfl
  | cons a rest ih => intro s; simp [deepcopy, ih]

/-! ### Lemmas about `extract_features` -/

theorem chunks_one {γ : Type} (l : List γ) :
    chunks 1 l = l.map (fun x => [x]) := by
  induction l with
  | nil => simp [chunks]
  | cons x xs ih =>
    rw [chunks]
    simp only [List.take_succ_cons, List.take_zero, List.drop_zero, List.map_cons]
    rw [ih]

theorem foldl_append_singleton {α β φ : Type} (forward_to : α → φ)
    (l : List (α × β)) :
    ∀ acc : List (φ × β),
      (l.map (fun x => [x])).foldl
        (fun feature_dataset batch =>
          feature_dataset ++
            List.zip (batch.map (fun sample => forward_to sample.1))
              (batch.map (fun sample => sample.2))) acc
        = acc ++ l.map (fun sample => (forward_to sample.1, sample.2)) := by
  induction l with
  | nil => intro acc; simp
  | cons x xs ih =>
    intro acc
    simp only [List.map_cons, List.foldl_cons]
    rw [ih]
    simp [List.zip]

theorem extract_features_batch_one {α β φ : Type} (forward_to : α → φ)
    (dataset : List (α × β)) (sampler : List Nat) :
    extract_features forward_to dataset sampler 1
      = (sampler.filterMap (fun i => dataset.get? i)).map
          (fun sample => (forward_to sample.1, sample.2)) := by
  unfold extract_features dataLoader
  rw [chunks_one, foldl_append_singleton]
  simp

theorem filterMap_get_length {α : Type} (d : List α) (sampler : List Nat)
    (hv : ∀ i ∈ sampler, i < d.length) :
    (sampler.filterMap (fun i => d.get? i)).length = sampler.length := by
  induction sampler with
  | nil => rfl
  | cons i rest ih =>
    have hi : i < d.length := hv i (List.mem_cons_self i rest)
    rw [List.filterMap_cons, List.get?_eq_get hi]
    simp only [List.length_cons]
    rw [ih (fun j hj => hv j (List.mem_cons_of_mem i hj))]

/-- The algorithm state reached by calling `load_gradients` with `G1` and then
again with `G2` on the same algorithm object and store, as the claims about
successive gradient loads describe. -/
def loadTwice {V : Type} (alg : Algorithm) (s : Store V) (G1 G2 : List Nat) :
    Algorithm × Store V :=
  load_gradients (load_gradients alg s G1).1 (load_gradients alg s G1).2 G2

/-! ### The claims -/

/-- C1 (evaluation at the failing input): with a gradient list of length 3 and
3 batches, `complete_train` applies the gradients at indices 0, 2, 2 — batch 1
trains with the gradient at index 2, not index 1, and the gradient at index 1
is never applied.  The claim says batch `b` with `b ≤ N - 1` uses index `b`. -/
theorem c1_gradient_index_skips_second : complete_train [(10 : Int), 20, 30] 3
    = ([10, 30, 30], none) := by rfl

/-- C2 (evaluation at the failing input): with external gradient `5` loaded and
computed gradient `7`, the hook's assignment only rebinds the local name
(second component `5`) while the hook returns `None` (first component), so the
gradient that propagates back is the computed `7`, not the loaded `5`. -/
theorem c2_hook_does_not_substitute :
    apply_gradients (some (5 : Int)) 7 = (none, 5) ∧
      propagatedGradient (some (5 : Int)) 7 = 7 := by
  exact ⟨rfl, rfl⟩

/-- C3 (evaluation at the failing input): with a gradient list of length 1 and
a single batch, `complete_train` reads `gradients_list[1]`, past the end of the
list, and raises `IndexError` — the gradient index exceeds `N - 1 = 0` and the
overrun raises instead of clamping.  The claim says the index never exceeds
`N - 1` for every `N ≥ 1`, including `N = 1`. -/
theorem c3_single_gradient_overruns : complete_train [(0 : Int)] 1
    = ([0], some "list index out of range") := by rfl

/-- C4: with an empty gradient list, `complete_train` fails at its very first
access to the gradient list (`self.gradients_list[0]`), raising `IndexError`
before any batch is trained, for every number of batches the loader would have
yielded. -/
theorem c4_empty_gradient_list_fails_first (G : Type) (numBatches : Nat) :
    complete_train ([] : List G) numBatches
      = ([], some "list index out of range") := by rfl

/-- C5: with gradient list `[g0, g1]` and exactly 3 batches, batch 0 trains
with `g0` in `cut_layer_gradients`, batch 1 with `g1`, and batch 2 with `g1`
(the index clamped at the last element), with no error. -/
theorem c5_two_gradients_three_batches (G : Type) (g0 g1 : G) :
    complete_train [g0, g1] 3 = ([g0, g1, g1], none) := by rfl

/-- C9: when no external gradient is loaded (`cut_layer_gradients is None`),
the hook leaves everything unchanged: it returns `None`, its local
`grad_output` keeps the computed value, and the computed gradient propagates
back unmodified (identity behavior). -/
theorem c9_hook_identity_when_not_loaded (G : Type) (computed : G) :
    apply_gradients (none : Option G) computed = (none, computed) ∧
      propagatedGradient (none : Option G) computed = computed := by
  exact ⟨rfl, rfl⟩

/-- C10: `FeatureDataset` is an identity wrapper: its length is the underlying
dataset's length, every lookup returns exactly the underlying (image, label)
pair, and a trainer handed the wrapped training set by `train` reads exactly
the original samples through it. -/
theorem c10_feature_dataset_identity (α β : Type) (d : List (α × β)) (i : Nat) :
    (FeatureDataset.mk d).len = d.length ∧
      (FeatureDataset.mk d).getitem i = d.get? i ∧
      train (fun fd => fd.getitem i) d = d.get? i := by
  have hget : (FeatureDataset.mk d).getitem i = d.get? i := by
    unfold FeatureDataset.getitem
    cases h : d.get? i with
    | none => rfl
    | some p => cases p; rfl
  exact ⟨rfl, hget, hget⟩

/-- C8: one iteration of the batch loop performs, in order: zero gradients,
forward pass, loss computation, backward pass (during which the registered
hook fires), optimizer step, and the gradient-index update; and whenever the
current index is in range (`idx + 1 ≤ len(gradients_list)`), the index is
advanced by exactly one unless it is already at the last index of the gradient
list. -/
theorem c8_batch_order_and_index_advance (G : Type) (gl : List G) (idx : Nat)
    (h : idx + 1 ≤ gl.length) :
    (batchBody gl idx).ops
        = [TrainOp.zeroGrad, TrainOp.forwardPass, TrainOp.computeLoss,
           TrainOp.backwardPass, TrainOp.optimizerStep, TrainOp.advanceIndex] ∧
      (batchBody gl idx).newIndex
        = (if idx = gl.length - 1 then idx else idx + 1) := by
  refine ⟨rfl, ?_⟩
  simp only [batchBody, nextIndex]
  split_ifs <;> omega

/-- C8 witness: the batch-loop iteration at index 1 over a 3-element gradient
list performs the six operations in order and advances the index to 2. -/
theorem c8_batch_order_and_index_advance_witness :
    1 + 1 ≤ ([(1 : Int), 2, 3] : List Int).length ∧
      ((batchBody ([(1 : Int), 2, 3] : List Int) 1).ops
          = [TrainOp.zeroGrad, TrainOp.forwardPass, TrainOp.computeLoss,
             TrainOp.backwardPass, TrainOp.optimizerStep, TrainOp.advanceIndex] ∧
        (batchBody ([(1 : Int), 2, 3] : List Int) 1).newIndex = 2) :=
  ⟨by decide,
    c8_batch_order_and_index_advance Int [(1 : Int), 2, 3] 1 (by decide)⟩

/-- C7: when `extract_features` runs with batch size 1 and a sampler that
yields every index of the dataset exactly once, it returns exactly as many
(feature, label) pairs as the dataset has samples, and the label of each
returned pair is the label of the source sample the sampler selected at that
position, unchanged. -/
theorem c7_extract_features_count_and_labels (α β φ : Type)
    (forward_to : α → φ) (dataset : List (α × β)) (sampler : List Nat)
    (hperm : sampler.Perm (List.range dataset.length)) :
    (extract_features forward_to dataset sampler 1).length = dataset.length ∧
      (extract_features forward_to dataset sampler 1).map (fun p => p.2)
        = sampler.filterMap
            (fun i => (dataset.get? i).map (fun sample => sample.2)) := by
  have hv : ∀ i ∈ sampler, i < dataset.length := by
    intro i hi
    exact List.mem_range.mp (hperm.mem_iff.mp hi)
  rw [extract_features_batch_one]
  constructor
  · rw [List.length_map, filterMap_get_length dataset sampler hv,
      hperm.length_eq, List.length_range]
  · rw [List.map_map, List.map_filterMap]
    rfl

/-- C7 witness: over the two-sample dataset `[(1, 10), (2, 20)]` with sampler
`[1, 0]`, feature extraction with batch size 1 returns 2 pairs whose labels
are `20` and `10`. -/
theorem c7_extract_features_count_and_labels_witness :
    ([1, 0] : List Nat).Perm
        (List.range ([((1 : Int), (10 : Int)), (2, 20)] : List (Int × Int)).length) ∧
      ((extract_features (fun x : Int => x)
            ([((1 : Int), (10 : Int)), (2, 20)] : List (Int × Int)) [1, 0] 1).length
          = ([((1 : Int), (10 : Int)), (2, 20)] : List (Int × Int)).length ∧
        (extract_features (fun x : Int => x)
              ([((1 : Int), (10 : Int)), (2, 20)] : List (Int × Int)) [1, 0] 1).map
            (fun p => p.2)
          = ([1, 0] : List Nat).filterMap
              (fun i =>
                (([((1 : Int), (10 : Int)), (2, 20)] : List (Int × Int)).get? i).map
                  (fun sample => sample.2))) :=
  ⟨by decide,
    c7_extract_features_count_and_labels Int Int Int (fun x : Int => x)
      ([((1 : Int), (10 : Int)), (2, 20)] : List (Int × Int)) [1, 0] (by decide)⟩

/-- C6: loading `G1` and then `G2` leaves `gradients_list` holding exactly the
values of `G2` (same length, same values in order — no leftover entry of
`G1`), and the stored list is a deep, independent copy: mutating in place any
object the caller's sequence `G2` references leaves the values read through
the stored list unchanged.  The hypothesis `h2` says `G2` references allocated
objects of the store reached after the first load. -/
theorem c6_load_gradients_overwrites_with_deepcopy (V : Type) (alg : Algorithm)
    (s : Store V) (G1 G2 : List Nat) (a : Nat) (v : V)
    (h2 : ∀ b ∈ G2, b < (load_gradients alg s G1).2.next) (ha : a ∈ G2) :
    (loadTwice alg s G1 G2).1.gradients_list.length = G2.length ∧
      (loadTwice alg s G1 G2).1.gradients_list.map (loadTwice alg s G1 G2).2.mem
        = G2.map (load_gradients alg s G1).2.mem ∧
      (loadTwice alg s G1 G2).1.gradients_list.map
          (((loadTwice alg s G1 G2).2.write a v).mem)
        = G2.map (load_gradients alg s G1).2.mem := by
  simp only [loadTwice, load_gradients] at *
  refine ⟨deepcopy_addrs_length G2 _, deepcopy_values G2 _ h2, ?_⟩
  have hne : ∀ c ∈ (deepcopy (deepcopy s G1).1 G2).2, c ≠ a := by
    intro c hc
    have hge := deepcopy_addrs_ge G2 (deepcopy s G1).1 c hc
    have hlt := h2 a ha
    omega
  rw [List.map_congr_left (fun c hc => ?_), deepcopy_values G2 _ h2]
  show (if c = a then v else (deepcopy (deepcopy s G1).1 G2).1.mem c)
      = (deepcopy (deepcopy s G1).1 G2).1.mem c
  rw [if_neg (hne c hc)]

/-- C6 witness: over an `Int` store with one allocated object holding `0`,
loading `[0]` twice stores a one-element copy whose value `0` survives an
in-place overwrite of the caller's object with `5`. -/
theorem c6_load_gradients_overwrites_with_deepcopy_witness :
    (∀ b ∈ ([0] : List Nat),
        b < (load_gradients ⟨[]⟩ ⟨fun _ => (0 : Int), 1⟩ [0]).2.next) ∧
      (0 : Nat) ∈ ([0] : List Nat) ∧
      ((loadTwice ⟨[]⟩ ⟨fun _ => (0 : Int), 1⟩ [0] [0]).1.gradients_list.length
          = ([0] : List Nat).length ∧
        (loadTwice ⟨[]⟩ ⟨fun _ => (0 : Int), 1⟩ [0] [0]).1.gradients_list.map
            (loadTwice ⟨[]⟩ ⟨fun _ => (0 : Int), 1⟩ [0] [0]).2.mem
          = ([0] : List Nat).map (load_gradients ⟨[]⟩ ⟨fun _ => (0 : Int), 1⟩ [0]).2.mem ∧
        (loadTwice ⟨[]⟩ ⟨fun _ => (0 : Int), 1⟩ [0] [0]).1.gradients_list.map
            (((loadTwice ⟨[]⟩ ⟨fun _ => (0 : Int), 1⟩ [0] [0]).2.write 0 (5 : Int)).mem)
          = ([0] : List Nat).map (load_gradients ⟨[]⟩ ⟨fun _ => (0 : Int), 1⟩ [0]).2.mem) :=
  ⟨by decide, by decide,
    c6_load_gradients_overwrites_with_deepcopy Int ⟨[]⟩ ⟨fun _ => (0 : Int), 1⟩
      [0] [0] 0 (5 : Int) (by decide) (by decide)⟩

end SplitLearning
